import Mathlib

/-!
Shallow embedding of the `TransactionAnalyzer` class from `src/index.js`.

Each transaction record carries the seven fields of the JSON input.
Amounts are modelled as rationals (the JS numbers in play are exact
decimals; `parseFloat` on an already numeric amount is the identity).
Dates are modelled as a year / zero-based month / day-of-month triple,
mirroring what `new Date(...)` exposes through `getFullYear`,
`getMonth` and `getDate`; JS `Date` objects compare by their timestamp,
which for valid calendar dates coincides with the lexicographic order
on the triple, so the embedding compares triples lexicographically.

Every method of the class is embedded as a function
`Store → Result × Store`: the second component is the state of
`this.transactions` after the call, translated statement by statement
from the method body (the query methods only ever read the array —
`filter`, `map`, `reduce`, `find`, `forEach`, `Set` — while
`addTransaction` pushes onto it).  JS `undefined` results (`find` with
no match) become `none`; the `NaN` produced by dividing by a zero
length in `calculateAverageTransactionAmount` is likewise modelled as
`none`, every other result being an exact rational.
-/

/-- The observable content of a JS `Date`: `getFullYear`, `getMonth`
(zero-based, always in `0..11` for a valid date) and `getDate`. -/
structure JsDate where
  year : Int
  month : Fin 12
  day : Int
deriving DecidableEq

/-- JS `<` on two `Date` values: timestamp order, i.e. lexicographic
order on (year, month, day) for valid calendar dates. -/
def JsDate.jsLt (a b : JsDate) : Bool :=
  decide (a.year < b.year) ||
    (a.year == b.year &&
      (decide (a.month.val < b.month.val) ||
        (a.month.val == b.month.val && decide (a.day < b.day))))

/-- JS `<=` on two `Date` values. -/
def JsDate.jsLe (a b : JsDate) : Bool :=
  JsDate.jsLt a b || a == b

/-- One transaction record, with the field names of the JSON input. -/
structure Transaction where
  transaction_id : String
  transaction_date : JsDate
  transaction_amount : ℚ
  transaction_type : String
  transaction_description : String
  merchant_name : String
  card_type : String
deriving DecidableEq

/-- The state owned by a `TransactionAnalyzer` instance: the
`this.transactions` array. -/
structure Store where
  transactions : List Transaction
deriving DecidableEq

/-- `addTransaction(transaction)`: `this.transactions.push(transaction)`. -/
def addTransaction (s : Store) (transaction : Transaction) : Unit × Store :=
  ((), ⟨s.transactions ++ [transaction]⟩)

/-- `getAllTransactions()`: returns `this.transactions`. -/
def getAllTransactions (s : Store) : List Transaction × Store :=
  (s.transactions, s)

/-- `getUniqueTransactionTypes()`: inserts every `transaction_type`
into a `Set` and converts it back to an array.  A JS `Set` keeps
first-insertion order and ignores re-insertions, which is exactly the
fold below. -/
def getUniqueTransactionTypes (s : Store) : List String × Store :=
  (s.transactions.foldl
    (fun types t =>
      if t.transaction_type ∈ types then types else types ++ [t.transaction_type])
    [], s)

/-- `calculateTotalAmount()`: `reduce((total, t) => total + parseFloat(t.transaction_amount), 0)`. -/
def calculateTotalAmount (s : Store) : ℚ × Store :=
  (s.transactions.foldl (fun total t => total + t.transaction_amount) 0, s)

/-- The guard `(!param || component === param)` used for each date
component in `calculateTotalAmountByDate`: an absent argument is
`undefined`, which is falsy, and a supplied `0` is falsy as well. -/
def matchComp (param : Option Int) (component : Int) : Bool :=
  match param with
  | none => true
  | some p => p == 0 || component == p

/-- `calculateTotalAmountByDate(year, month, day)`: sums the amounts of
the transactions whose date passes the three falsy-or-equal guards;
`getMonth() + 1` is compared against the `month` argument. -/
def calculateTotalAmountByDate (s : Store) (year month day : Option Int) : ℚ × Store :=
  (s.transactions.foldl
    (fun total t =>
      if matchComp year t.transaction_date.year &&
          matchComp month ((t.transaction_date.month.val : Int) + 1) &&
          matchComp day t.transaction_date.day
      then total + t.transaction_amount
      else total)
    0, s)

/-- `getTransactionsByType(type)`: `filter(t => t.transaction_type === type)`. -/
def getTransactionsByType (s : Store) (ty : String) : List Transaction × Store :=
  (s.transactions.filter (fun t => t.transaction_type == ty), s)

/-- `getTransactionsInDateRange(startDate, endDate)`:
`filter(t => d >= startDate && d <= endDate)`. -/
def getTransactionsInDateRange (s : Store) (startDate endDate : JsDate) :
    List Transaction × Store :=
  (s.transactions.filter
    (fun t =>
      JsDate.jsLe startDate t.transaction_date &&
        JsDate.jsLe t.transaction_date endDate), s)

/-- `getTransactionsByMerchant(merchantName)`: `filter(t => t.merchant_name === merchantName)`. -/
def getTransactionsByMerchant (s : Store) (merchantName : String) :
    List Transaction × Store :=
  (s.transactions.filter (fun t => t.merchant_name == merchantName), s)

/-- `calculateAverageTransactionAmount()`: `this.calculateTotalAmount() /
this.transactions.length`.  A zero length makes the JS division produce
`NaN`, embedded as `none`; otherwise the exact rational quotient. -/
def calculateAverageTransactionAmount (s : Store) : Option ℚ × Store :=
  let p := calculateTotalAmount s
  (if p.2.transactions.length = 0 then none
   else some (p.1 / (p.2.transactions.length : ℚ)), p.2)

/-- `getTransactionsByAmountRange(minAmount, maxAmount)`:
`filter(t => amount >= minAmount && amount <= maxAmount)`.  (The class
defines this method twice with identical bodies; in JS the second
definition wins, and both are this function.) -/
def getTransactionsByAmountRange (s : Store) (minAmount maxAmount : ℚ) :
    List Transaction × Store :=
  (s.transactions.filter
    (fun t =>
      decide (minAmount ≤ t.transaction_amount) &&
        decide (t.transaction_amount ≤ maxAmount)), s)

/-- The `months` tally built by `findMostTransactionsMonth` and
`findMostDebitTransactionMonth`: start from `new Array(12).fill(0)` and
run `months[getMonth()]++` for each transaction of the list. -/
def monthTallies (l : List Transaction) : List Nat :=
  l.foldl
    (fun months t =>
      months.set t.transaction_date.month.val
        (months.getD t.transaction_date.month.val 0 + 1))
    (List.replicate 12 0)

/-- `Math.max(...months)` over the twelve tallies: the counts are
naturals, so the spread maximum is the fold of `Nat.max` from 0. -/
def maxTally (l : List Transaction) : Nat :=
  (monthTallies l).foldl Nat.max 0

/-- `findMostTransactionsMonth()`: tallies transactions per zero-based
month, takes `Math.max(...months)` and returns
`months.indexOf(max) + 1`. -/
def findMostTransactionsMonth (s : Store) : Nat × Store :=
  ((monthTallies s.transactions).indexOf (maxTally s.transactions) + 1, s)

/-- `findMostDebitTransactionMonth()`: the same tally restricted to
`this.getTransactionsByType('debit')`. -/
def findMostDebitTransactionMonth (s : Store) : Nat × Store :=
  let p := getTransactionsByType s "debit"
  ((monthTallies p.1).indexOf (maxTally p.1) + 1, p.2)

/-- `mostTransactionTypes()`: compares the lengths of the debit and
credit filters. -/
def mostTransactionTypes (s : Store) : String × Store :=
  let p1 := getTransactionsByType s "debit"
  let debitCount := p1.1.length
  let p2 := getTransactionsByType p1.2 "credit"
  let creditCount := p2.1.length
  (if debitCount > creditCount then "debit"
   else if debitCount < creditCount then "credit"
   else "equal", p2.2)

/-- `getTransactionsBeforeDate(date)`: `filter(t => d < date)`. -/
def getTransactionsBeforeDate (s : Store) (date : JsDate) : List Transaction × Store :=
  (s.transactions.filter (fun t => JsDate.jsLt t.transaction_date date), s)

/-- `findTransactionById(id)`: `this.transactions.find(t =>
t.transaction_id === id)`; JS `find` returns the first hit or
`undefined`, embedded as `Option`. -/
def findTransactionById (s : Store) (id : String) : Option Transaction × Store :=
  (s.transactions.find? (fun t => t.transaction_id == id), s)

/-- `mapTransactionDescriptions()`: `map(t => t.transaction_description)`. -/
def mapTransactionDescriptions (s : Store) : List String × Store :=
  (s.transactions.map (fun t => t.transaction_description), s)

/-- The two-transaction example store of the specification: id "1",
2019-01-01, amount 100, debit; id "2", 2019-02-15, amount 50, credit. -/
def exStore : Store :=
  ⟨[⟨"1", ⟨2019, 0, 1⟩, 100, "debit", "", "", ""⟩,
    ⟨"2", ⟨2019, 1, 15⟩, 50, "credit", "", "", ""⟩]⟩

/-- Swap the debit and credit tags of one transaction, leaving every
other type value alone: the transformation that exchanges the debit and
credit counts of a store. -/
def swapDebitCredit (t : Transaction) : Transaction :=
  { t with
    transaction_type :=
      if t.transaction_type == "debit" then "credit"
      else if t.transaction_type == "credit" then "debit"
      else t.transaction_type }

/-- A store with the debit and credit counts exchanged. -/
def swapStore (s : Store) : Store :=
  ⟨s.transactions.map swapDebitCredit⟩

/-- Exchanging "debit" and "credit" on the result labels of
`mostTransactionTypes`; "equal" is a fixed point. -/
def swapLabel (r : String) : String :=
  if r == "debit" then "credit"
  else if r == "credit" then "debit"
  else r

/-! ### Helper lemmas -/

lemma foldl_amount (l : List Transaction) (a : ℚ) :
    l.foldl (fun total t => total + t.transaction_amount) a =
      a + (l.map Transaction.transaction_amount).sum := by
  induction l generalizing a with
  | nil => simp
  | cons t ts ih =>
      simp only [List.foldl_cons, List.map_cons, List.sum_cons, ih, add_assoc]

lemma foldl_cond_amount (p : Transaction → Bool) (l : List Transaction) (a : ℚ) :
    l.foldl (fun total t => if p t then total + t.transaction_amount else total) a =
      a + ((l.filter p).map Transaction.transaction_amount).sum := by
  induction l generalizing a with
  | nil => simp
  | cons t ts ih =>
      by_cases h : p t
      · simp only [List.foldl_cons, h, if_pos, List.filter_cons_of_pos h,
          List.map_cons, List.sum_cons, ih, add_assoc]
      · simp [List.foldl_cons, h, List.filter_cons_of_neg h, ih]

lemma uniqueFold_spec :
    ∀ (l : List Transaction) (acc : List String), acc.Nodup →
      (l.foldl
          (fun types t =>
            if t.transaction_type ∈ types then types else types ++ [t.transaction_type])
          acc).Nodup ∧
      ∀ x, x ∈ l.foldl
          (fun types t =>
            if t.transaction_type ∈ types then types else types ++ [t.transaction_type])
          acc ↔ x ∈ acc ∨ x ∈ l.map Transaction.transaction_type := by
  intro l
  induction l with
  | nil => intro acc h; simpa using h
  | cons t ts ih =>
      intro acc hacc
      by_cases h : t.transaction_type ∈ acc
      · have := ih acc hacc
        refine ⟨by simpa [List.foldl_cons, h] using this.1, ?_⟩
        intro x
        have hx := this.2 x
        simp only [List.foldl_cons, h, if_pos] at hx ⊢
        rw [hx]
        simp only [List.map_cons, List.mem_cons]
        constructor
        · rintro (hxa | hxt)
          · exact Or.inl hxa
          · exact Or.inr (Or.inr hxt)
        · rintro (hxa | rfl | hxt)
          · exact Or.inl hxa
          · exact Or.inl h
          · exact Or.inr hxt
      · have hacc2 : (acc ++ [t.transaction_type]).Nodup := by
          simp [List.nodup_append, hacc, h]
        have := ih (acc ++ [t.transaction_type]) hacc2
        refine ⟨by simpa [List.foldl_cons, h] using this.1, ?_⟩
        intro x
        have hx := this.2 x
        simp only [List.foldl_cons, h, if_neg, not_false_iff] at hx ⊢
        rw [hx]
        simp only [List.mem_append, List.mem_singleton, List.map_cons, List.mem_cons]
        tauto

/-! ### Claims -/

/-- Claim C4: for every store, totalAmount (calculateTotalAmount) equals
the sum of the amount field over all transactions, and on the empty
store it returns 0. -/
theorem C4_totalAmount_is_sum :
    (∀ s : Store,
      (calculateTotalAmount s).1 = (s.transactions.map Transaction.transaction_amount).sum) ∧
    (calculateTotalAmount ⟨[]⟩).1 = 0 := by
  constructor
  · intro s
    simpa using foldl_amount s.transactions 0
  · rfl

/-- Claim C3: averageAmount (calculateAverageTransactionAmount) equals
totalAmount divided by the number of transactions, on the empty store it
yields the invalid (NaN) value rather than a valid average, and on the
two-transaction example with amounts 100 and 50 it returns 75. -/
theorem C3_averageAmount :
    (∀ s : Store, s.transactions.length ≠ 0 →
      (calculateAverageTransactionAmount s).1 =
        some ((calculateTotalAmount s).1 / (s.transactions.length : ℚ))) ∧
    (calculateAverageTransactionAmount ⟨[]⟩).1 = none ∧
    (calculateAverageTransactionAmount exStore).1 = some 75 := by
  refine ⟨?_, rfl, ?_⟩
  · intro s h
    simp [calculateAverageTransactionAmount, calculateTotalAmount, h]
  · norm_num [calculateAverageTransactionAmount, calculateTotalAmount, exStore]

/-- Witness for C3 at the concrete two-transaction example store. -/
theorem C3_averageAmount_witness :
    (calculateAverageTransactionAmount exStore).1 =
      some ((calculateTotalAmount exStore).1 / (exStore.transactions.length : ℚ)) :=
  C3_averageAmount.1 exStore (by decide)

/-- Claim C8: for every store, uniqueTypes (getUniqueTransactionTypes)
returns a collection with no duplicates whose elements are exactly the
distinct values of the type field occurring in the store. -/
theorem C8_uniqueTypes :
    ∀ s : Store,
      ((getUniqueTransactionTypes s).1).Nodup ∧
      ∀ x, x ∈ (getUniqueTransactionTypes s).1 ↔
        x ∈ s.transactions.map Transaction.transaction_type := by
  intro s
  have h := uniqueFold_spec s.transactions [] List.nodup_nil
  refine ⟨h.1, fun x => ?_⟩
  rw [getUniqueTransactionTypes]
  simpa using h.2 x

/-- Claim C9: every operation other than append (addTransaction) is a
pure read: for every store and arguments, each query and aggregation
leaves the transaction sequence of the store unchanged. -/
theorem C9_queries_pure :
    ∀ (s : Store) (ty mn i : String) (a b : JsDate) (lo hi : ℚ) (y m d : Option Int),
      (getAllTransactions s).2 = s ∧
      (getUniqueTransactionTypes s).2 = s ∧
      (calculateTotalAmount s).2 = s ∧
      (calculateTotalAmountByDate s y m d).2 = s ∧
      (getTransactionsByType s ty).2 = s ∧
      (getTransactionsInDateRange s a b).2 = s ∧
      (getTransactionsByMerchant s mn).2 = s ∧
      (calculateAverageTransactionAmount s).2 = s ∧
      (getTransactionsByAmountRange s lo hi).2 = s ∧
      (findMostTransactionsMonth s).2 = s ∧
      (findMostDebitTransactionMonth s).2 = s ∧
      (mostTransactionTypes s).2 = s ∧
      (getTransactionsBeforeDate s a).2 = s ∧
      (findTransactionById s i).2 = s ∧
      (mapTransactionDescriptions s).2 = s := by
  intro s ty mn i a b lo hi y m d
  exact ⟨rfl, rfl, rfl, rfl, rfl, rfl, rfl, rfl, rfl, rfl, rfl, rfl, rfl, rfl, rfl⟩

lemma find?_first_split {α} (p : α → Bool) :
    ∀ (l : List α) (x : α), l.find? p = some x →
      p x = true ∧ ∃ l1 l2, l = l1 ++ x :: l2 ∧ ∀ u ∈ l1, p u = false := by
  intro l
  induction l with
  | nil => intro x h; simp at h
  | cons a t ih =>
      intro x h
      by_cases ha : p a
      · rw [List.find?_cons_of_pos _ ha] at h
        cases h
        exact ⟨ha, [], t, rfl, by simp⟩
      · rw [List.find?_cons_of_neg _ (by simpa using ha)] at h
        obtain ⟨hp, l1, l2, rfl, hall⟩ := ih x h
        refine ⟨hp, a :: l1, l2, rfl, ?_⟩
        intro u hu
        rcases List.mem_cons.1 hu with rfl | hu2
        · simpa using ha
        · exact hall u hu2

lemma find?_append_of_some {α} (p : α → Bool) :
    ∀ (l l2 : List α) (x : α), l.find? p = some x → (l ++ l2).find? p = some x := by
  intro l
  induction l with
  | nil => intro l2 x h; simp at h
  | cons a t ih =>
      intro l2 x h
      by_cases ha : p a
      · rw [List.find?_cons_of_pos _ ha] at h
        cases h
        rw [List.cons_append]
        exact List.find?_cons_of_pos _ ha
      · rw [List.find?_cons_of_neg _ (by simpa using ha)] at h
        rw [List.cons_append, List.find?_cons_of_neg _ (by simpa using ha)]
        exact ih l2 x h

/-- Claim C2: findById (findTransactionById) returns the first
transaction in insertion order whose id equals the given id, or the
explicit absence value `none` when no transaction matches; appending a
transaction whose id duplicates an existing one does not change the
result of findById for that id. -/
theorem C2_findById :
    ∀ (s : Store) (i : String),
      ((findTransactionById s i).1 = none ↔
        ∀ t ∈ s.transactions, t.transaction_id ≠ i) ∧
      (∀ t, (findTransactionById s i).1 = some t →
        t.transaction_id = i ∧
          ∃ l1 l2, s.transactions = l1 ++ t :: l2 ∧
            ∀ u ∈ l1, u.transaction_id ≠ i) ∧
      (∀ u : Transaction, u.transaction_id = i →
        (findTransactionById s i).1 ≠ none →
        (findTransactionById (addTransaction s u).2 i).1 =
          (findTransactionById s i).1) := by
  intro s i
  refine ⟨?_, ?_, ?_⟩
  · rw [findTransactionById]
    rw [List.find?_eq_none]
    simp
  · intro t h
    obtain ⟨hp, l1, l2, heq, hall⟩ := find?_first_split _ _ t h
    refine ⟨by simpa using hp, l1, l2, heq, ?_⟩
    intro u hu
    have := hall u hu
    simpa using this
  · intro u _ hne
    rw [addTransaction, findTransactionById]
    obtain ⟨x, hx⟩ := Option.ne_none_iff_exists.1 hne
    rw [findTransactionById] at hx ⊢
    rw [find?_append_of_some _ _ _ x hx.symm, ← hx]

/-- Witness for C2: looking up id "1" in the example store is unchanged
by appending a second transaction that also carries id "1". -/
theorem C2_findById_witness :
    (findTransactionById
        (addTransaction exStore ⟨"1", ⟨2019, 2, 3⟩, 7, "debit", "", "", ""⟩).2 "1").1 =
      (findTransactionById exStore "1").1 :=
  (C2_findById exStore "1").2.2 ⟨"1", ⟨2019, 2, 3⟩, 7, "debit", "", "", ""⟩ rfl
    (by decide)

lemma swap_count_debit :
    ∀ l : List Transaction,
      ((l.map swapDebitCredit).filter (fun t => t.transaction_type == "debit")).length =
        (l.filter (fun t => t.transaction_type == "credit")).length := by
  intro l
  induction l with
  | nil => rfl
  | cons t ts ih =>
      by_cases hc : t.transaction_type = "credit"
      · have hd : ¬ t.transaction_type = "debit" := by rw [hc]; decide
        simp [swapDebitCredit, hc, hd, ih]
      · by_cases hd : t.transaction_type = "debit"
        · simp [swapDebitCredit, hc, hd, ih]
        · simp [swapDebitCredit, hc, hd, ih]

lemma swap_count_credit :
    ∀ l : List Transaction,
      ((l.map swapDebitCredit).filter (fun t => t.transaction_type == "credit")).length =
        (l.filter (fun t => t.transaction_type == "debit")).length := by
  intro l
  induction l with
  | nil => rfl
  | cons t ts ih =>
      by_cases hc : t.transaction_type = "credit"
      · have hd : ¬ t.transaction_type = "debit" := by rw [hc]; decide
        simp [swapDebitCredit, hc, hd, ih]
      · by_cases hd : t.transaction_type = "debit"
        · simp [swapDebitCredit, hc, hd, ih]
        · simp [swapDebitCredit, hc, hd, ih]

/-- Claim C6: dominantType (mostTransactionTypes) is symmetric in debit
and credit: swapping the debit and credit transactions of a store swaps
a "debit" result with a "credit" result, and the result is "equal"
exactly when the two counts agree (including when both are zero). -/
theorem C6_dominantType_symmetric :
    ∀ s : Store,
      (mostTransactionTypes (swapStore s)).1 = swapLabel (mostTransactionTypes s).1 ∧
      ((mostTransactionTypes s).1 = "equal" ↔
        (getTransactionsByType s "debit").1.length =
          (getTransactionsByType s "credit").1.length) := by
  intro s
  have hd := swap_count_debit s.transactions
  have hc := swap_count_credit s.transactions
  simp only [mostTransactionTypes, getTransactionsByType, swapStore]
  simp only [hd, hc]
  set d := (List.filter (fun t => t.transaction_type == "debit") s.transactions).length
  set c := (List.filter (fun t => t.transaction_type == "credit") s.transactions).length
  rcases Nat.lt_trichotomy d c with hlt | heq | hgt
  · rw [if_pos (by omega : c > d), if_neg (by omega : ¬ d > c), if_pos hlt]
    exact ⟨by decide, fun h => absurd h (by decide), fun h => absurd h (by omega)⟩
  · rw [if_neg (by omega : ¬ c > d), if_neg (by omega : ¬ c < d),
      if_neg (by omega : ¬ d > c), if_neg (by omega : ¬ d < c)]
    exact ⟨by decide, fun _ => heq, fun _ => rfl⟩
  · rw [if_neg (by omega : ¬ c > d), if_pos (by omega : c < d), if_pos (by omega : d > c)]
    exact ⟨by decide, fun h => absurd h (by decide), fun h => absurd h (by omega)⟩

lemma jsLe_and_jsLe_eq_beq (a d : JsDate) :
    (JsDate.jsLe a d && JsDate.jsLe d a) = (d == a) := by
  obtain ⟨ya, ma, da⟩ := a
  obtain ⟨yd, md, dd⟩ := d
  rw [Bool.eq_iff_iff]
  simp only [JsDate.jsLe, JsDate.jsLt, Bool.and_eq_true, Bool.or_eq_true,
    decide_eq_true_eq, beq_iff_eq, JsDate.mk.injEq, Fin.ext_iff]
  constructor
  · rintro ⟨h1 | h1, h2 | h2⟩ <;> exact ⟨by omega, by omega, by omega⟩
  · rintro ⟨h1, h2, h3⟩
    exact ⟨Or.inr ⟨by omega, by omega, by omega⟩, Or.inr ⟨by omega, by omega, by omega⟩⟩

/-- Claim C7: for every store and dates a, b, inDateRange
(getTransactionsInDateRange) returns exactly the transactions whose
date lies in the closed interval from a to b, in insertion order; when
the two bounds coincide it returns exactly the transactions dated a. -/
theorem C7_inDateRange :
    ∀ (s : Store) (a b : JsDate),
      (∀ t, t ∈ (getTransactionsInDateRange s a b).1 ↔
        t ∈ s.transactions ∧ JsDate.jsLe a t.transaction_date = true ∧
          JsDate.jsLe t.transaction_date b = true) ∧
      List.Sublist (getTransactionsInDateRange s a b).1 s.transactions ∧
      (getTransactionsInDateRange s a a).1 =
        s.transactions.filter (fun t => t.transaction_date == a) := by
  intro s a b
  refine ⟨?_, ?_, ?_⟩
  · intro t
    rw [getTransactionsInDateRange]
    simp [List.mem_filter, and_assoc]
  · exact List.filter_sublist _
  · rw [getTransactionsInDateRange]
    exact List.filter_congr (fun t _ => jsLe_and_jsLe_eq_beq a t.transaction_date)

/-- Claim C5: totalAmountByDate (calculateTotalAmountByDate) sums the
amounts of exactly those transactions whose date agrees with every
supplied year/month/day component, an omitted component matching any
value.  The supplied components are assumed to be nonzero, i.e. inside
the documented domain (year a calendar year, month 1-12, day 1-31); a
supplied 0 is falsy in JS and would behave like an omitted component.
The example totalAmountByDate(2019, 1) with day omitted sums only the
January 2019 transaction, giving 100. -/
theorem C5_totalAmountByDate :
    (∀ (s : Store) (year month day : Option Int),
      (∀ y, year = some y → y ≠ 0) →
      (∀ m, month = some m → m ≠ 0) →
      (∀ d, day = some d → d ≠ 0) →
      (calculateTotalAmountByDate s year month day).1 =
        ((s.transactions.filter (fun t =>
            year.all (fun y => t.transaction_date.year == y) &&
            month.all (fun m => ((t.transaction_date.month.val : Int) + 1) == m) &&
            day.all (fun d => t.transaction_date.day == d))).map
          Transaction.transaction_amount).sum) ∧
    (calculateTotalAmountByDate exStore (some 2019) (some 1) none).1 = 100 := by
  constructor
  · intro s year month day hy hm hd
    rw [calculateTotalAmountByDate]
    rw [foldl_cond_amount
      (fun t =>
        matchComp year t.transaction_date.year &&
          matchComp month ((t.transaction_date.month.val : Int) + 1) &&
          matchComp day t.transaction_date.day)
      s.transactions 0]
    rw [zero_add]
    have hcomp : ∀ (p : Option Int) (v : Int), (∀ x, p = some x → x ≠ 0) →
        matchComp p v = p.all (fun x => v == x) := by
      intro p v hp
      cases p with
      | none => rfl
      | some x =>
          have hx : x ≠ 0 := hp x rfl
          simp [matchComp, Option.all, hx]
    have hfilt :
        List.filter
          (fun t =>
            matchComp year t.transaction_date.year &&
              matchComp month ((t.transaction_date.month.val : Int) + 1) &&
              matchComp day t.transaction_date.day)
          s.transactions =
        List.filter
          (fun t =>
            year.all (fun y => t.transaction_date.year == y) &&
              month.all (fun m => ((t.transaction_date.month.val : Int) + 1) == m) &&
              day.all (fun d => t.transaction_date.day == d))
          s.transactions := by
      apply List.filter_congr
      intro t _
      rw [hcomp year t.transaction_date.year hy,
        hcomp month ((t.transaction_date.month.val : Int) + 1) hm,
        hcomp day t.transaction_date.day hd]
    rw [hfilt]
  · norm_num [calculateTotalAmountByDate, exStore, matchComp]

/-- Witness for C5 at totalAmountByDate(2019, 1) on the example store:
the filtered sum formula applies with all supplied components nonzero. -/
theorem C5_totalAmountByDate_witness :
    (calculateTotalAmountByDate exStore (some 2019) (some 1) none).1 =
      ((exStore.transactions.filter (fun t =>
          (some (2019 : Int)).all (fun y => t.transaction_date.year == y) &&
          (some (1 : Int)).all (fun m => ((t.transaction_date.month.val : Int) + 1) == m) &&
          (none : Option Int).all (fun d => t.transaction_date.day == d))).map
        Transaction.transaction_amount).sum :=
  C5_totalAmountByDate.1 exStore (some 2019) (some 1) none
    (by intro y hy; cases hy; decide)
    (by intro m hm; cases hm; decide)
    (by intro d hd; cases hd)

lemma monthTallies_length (l : List Transaction) :
    (monthTallies l).length = 12 := by
  rw [monthTallies]
  have keep : ∀ (ts : List Transaction) (init : List Nat),
      (ts.foldl
        (fun months t =>
          months.set t.transaction_date.month.val
            (months.getD t.transaction_date.month.val 0 + 1))
        init).length = init.length := by
    intro ts
    induction ts with
    | nil => intro init; rfl
    | cons t ts ih =>
        intro init
        rw [List.foldl_cons, ih, List.length_set]
  rw [keep, List.length_replicate]

lemma le_foldl_max : ∀ (l : List Nat) (a : Nat), a ≤ l.foldl Nat.max a := by
  intro l
  induction l with
  | nil => intro a; exact Nat.le_refl a
  | cons b t ih =>
      intro a
      rw [List.foldl_cons]
      exact Nat.le_trans (Nat.le_max_left a b) (ih (Nat.max a b))

lemma mem_le_foldl_max : ∀ (l : List Nat) (a x : Nat), x ∈ l → x ≤ l.foldl Nat.max a := by
  intro l
  induction l with
  | nil => intro a x h; exact absurd h (List.not_mem_nil x)
  | cons b t ih =>
      intro a x h
      rw [List.foldl_cons]
      rcases List.mem_cons.1 h with rfl | h2
      · exact Nat.le_trans (Nat.le_max_right a x) (le_foldl_max t (Nat.max a x))
      · exact ih (Nat.max a b) x h2

lemma foldl_max_mem_or : ∀ (l : List Nat) (a : Nat),
    l.foldl Nat.max a ∈ l ∨ l.foldl Nat.max a = a := by
  intro l
  induction l with
  | nil => intro a; exact Or.inr rfl
  | cons b t ih =>
      intro a
      rw [List.foldl_cons]
      rcases ih (Nat.max a b) with h | h
      · exact Or.inl (List.mem_cons_of_mem b h)
      · rcases Nat.le_total a b with hab | hab
        · have hm : Nat.max a b = b := Nat.max_eq_right hab
          rw [h, hm]; exact Or.inl (List.mem_cons_self b t)
        · have hm : Nat.max a b = a := Nat.max_eq_left hab
          rw [h, hm]; exact Or.inr rfl

lemma maxTally_mem (l : List Transaction) : maxTally l ∈ monthTallies l := by
  have hlen := monthTallies_length l
  rcases foldl_max_mem_or (monthTallies l) 0 with h | h
  · exact h
  · have hne : monthTallies l ≠ [] := by
      intro hnil
      rw [hnil] at hlen
      exact absurd hlen (by decide)
    obtain ⟨b, t, hbt⟩ := List.exists_cons_of_ne_nil hne
    have hb : b ∈ monthTallies l := by rw [hbt]; exact List.mem_cons_self b t
    have hble := mem_le_foldl_max (monthTallies l) 0 b hb
    rw [maxTally, h]
    rw [h] at hble
    have : b = 0 := Nat.le_zero.1 hble
    rw [← this]
    exact hb

lemma getD_ne_of_lt_indexOf :
    ∀ (l : List Nat) (a : Nat) (j : Nat), j < l.indexOf a → l.getD j 0 ≠ a := by
  intro l
  induction l with
  | nil => intro a j h; exact absurd h (by simp [List.indexOf])
  | cons b t ih =>
      intro a j h
      by_cases hb : b = a
      · rw [hb, List.indexOf_cons_self] at h
        exact absurd h (Nat.not_lt_zero j)
      · rw [List.indexOf_cons_ne t hb] at h
        cases j with
        | zero => simpa using hb
        | succ k =>
            have : k < t.indexOf a := Nat.lt_of_succ_lt_succ h
            simpa using ih a k this

lemma getD_set_self :
    ∀ (l : List Nat) (i v : Nat), i < l.length → (l.set i v).getD i 0 = v := by
  intro l
  induction l with
  | nil => intro i v h; exact absurd h (Nat.not_lt_zero i)
  | cons b t ih =>
      intro i v h
      cases i with
      | zero => rfl
      | succ k => exact ih k v (Nat.lt_of_succ_lt_succ h)

lemma getD_set_ne :
    ∀ (l : List Nat) (i j v : Nat), i ≠ j → (l.set i v).getD j 0 = l.getD j 0 := by
  intro l
  induction l with
  | nil => intro i j v _; rfl
  | cons b t ih =>
      intro i j v hij
      cases i with
      | zero =>
          cases j with
          | zero => exact absurd rfl hij
          | succ m => rfl
      | succ k =>
          cases j with
          | zero => rfl
          | succ m =>
              exact ih k m v (fun he => hij (by rw [he]))

lemma getD_replicate_zero : ∀ (n j : Nat), (List.replicate n (0 : Nat)).getD j 0 = 0 := by
  intro n
  induction n with
  | zero => intro j; rfl
  | succ k ih =>
      intro j
      cases j with
      | zero => rfl
      | succ m => exact ih m

lemma tallyFold_getD :
    ∀ (l : List Transaction) (init : List Nat), init.length = 12 →
      ∀ j, j < 12 →
        (l.foldl
            (fun months t =>
              months.set t.transaction_date.month.val
                (months.getD t.transaction_date.month.val 0 + 1))
            init).getD j 0 =
          init.getD j 0 +
            (l.filter (fun t => t.transaction_date.month.val == j)).length := by
  intro l
  induction l with
  | nil => intro init _ j _; simp
  | cons t ts ih =>
      intro init hlen j hj
      rw [List.foldl_cons]
      have hlen2 :
          (init.set t.transaction_date.month.val
            (init.getD t.transaction_date.month.val 0 + 1)).length = 12 := by
        rw [List.length_set]; exact hlen
      rw [ih _ hlen2 j hj]
      by_cases hm : t.transaction_date.month.val = j
      · rw [hm, getD_set_self init j _ (by rw [hlen]; exact hj)]
        rw [List.filter_cons_of_pos (by simpa using hm), List.length_cons]
        omega
      · rw [getD_set_ne init _ j _ hm]
        rw [List.filter_cons_of_neg (by simpa using hm)]

lemma monthTallies_getD_count (l : List Transaction) (j : Nat) (hj : j < 12) :
    (monthTallies l).getD j 0 =
      (l.filter (fun t => t.transaction_date.month.val == j)).length := by
  rw [monthTallies, tallyFold_getD l (List.replicate 12 0) (List.length_replicate 12 0) j hj,
    getD_replicate_zero, Nat.zero_add]

lemma busiest_core (l : List Transaction) :
    1 ≤ (monthTallies l).indexOf (maxTally l) + 1 ∧
    (monthTallies l).indexOf (maxTally l) + 1 ≤ 12 ∧
    (monthTallies l).getD ((monthTallies l).indexOf (maxTally l) + 1 - 1) 0 = maxTally l ∧
    (∀ j, (monthTallies l).getD j 0 ≤ maxTally l) ∧
    (∀ j, j < (monthTallies l).indexOf (maxTally l) + 1 - 1 →
      (monthTallies l).getD j 0 < maxTally l) := by
  have hmem := maxTally_mem l
  have hlen := monthTallies_length l
  have hidx : (monthTallies l).indexOf (maxTally l) < (monthTallies l).length :=
    List.indexOf_lt_length.2 hmem
  refine ⟨Nat.le_add_left 1 _, ?_, ?_, ?_, ?_⟩
  · omega
  · rw [Nat.add_sub_cancel]
    rw [List.getD_eq_getElem _ 0 hidx]
    exact List.getElem_indexOf hidx
  · intro j
    by_cases hj : j < (monthTallies l).length
    · rw [List.getD_eq_getElem _ 0 hj]
      exact mem_le_foldl_max (monthTallies l) 0 _ (List.getElem_mem hj)
    · rw [List.getD_eq_default _ 0 (Nat.le_of_not_lt hj)]
      exact Nat.zero_le _
  · intro j hj
    rw [Nat.add_sub_cancel] at hj
    have hne := getD_ne_of_lt_indexOf (monthTallies l) (maxTally l) j hj
    have hle : (monthTallies l).getD j 0 ≤ maxTally l := by
      by_cases hj2 : j < (monthTallies l).length
      · rw [List.getD_eq_getElem _ 0 hj2]
        exact mem_le_foldl_max (monthTallies l) 0 _ (List.getElem_mem hj2)
      · rw [List.getD_eq_default _ 0 (Nat.le_of_not_lt hj2)]
        exact Nat.zero_le _
    exact Nat.lt_of_le_of_ne hle hne

/-- Claim C1: busiestMonth (findMostTransactionsMonth) returns the month
number (1-12) whose tally equals the maximum transaction count over all
types, and every earlier month has a strictly smaller count, so ties
break to the lowest month; on the two-transaction example with one
January and one February transaction it returns 1. -/
theorem C1_busiestMonth_lowest_tie :
    (∀ s : Store,
      1 ≤ (findMostTransactionsMonth s).1 ∧
      (findMostTransactionsMonth s).1 ≤ 12 ∧
      (∀ j, j < 12 →
        (monthTallies s.transactions).getD j 0 =
          (s.transactions.filter
            (fun t => t.transaction_date.month.val == j)).length) ∧
      (monthTallies s.transactions).getD ((findMostTransactionsMonth s).1 - 1) 0 =
        maxTally s.transactions ∧
      (∀ j, (monthTallies s.transactions).getD j 0 ≤ maxTally s.transactions) ∧
      (∀ j, j < (findMostTransactionsMonth s).1 - 1 →
        (monthTallies s.transactions).getD j 0 < maxTally s.transactions)) ∧
    (findMostTransactionsMonth exStore).1 = 1 := by
  constructor
  · intro s
    have h := busiest_core s.transactions
    exact ⟨h.1, h.2.1, fun j hj => monthTallies_getD_count s.transactions j hj,
      h.2.2.1, h.2.2.2.1, h.2.2.2.2⟩
  · rfl

/-- Witness for C1 at a one-transaction store dated in February: the
returned month is 2 and the tally of the earlier month 1 is strictly
below the maximum count. -/
theorem C1_busiestMonth_witness :
    ((monthTallies (⟨[⟨"2", ⟨2019, 1, 15⟩, 50, "credit", "", "", ""⟩]⟩ : Store).transactions).getD 0 0 <
      maxTally (⟨[⟨"2", ⟨2019, 1, 15⟩, 50, "credit", "", "", ""⟩]⟩ : Store).transactions) ∧
    (monthTallies (⟨[⟨"2", ⟨2019, 1, 15⟩, 50, "credit", "", "", ""⟩]⟩ : Store).transactions).getD 1 0 =
      ((⟨[⟨"2", ⟨2019, 1, 15⟩, 50, "credit", "", "", ""⟩]⟩ : Store).transactions.filter
        (fun t => t.transaction_date.month.val == 1)).length :=
  ⟨(C1_busiestMonth_lowest_tie.1
      (⟨[⟨"2", ⟨2019, 1, 15⟩, 50, "credit", "", "", ""⟩]⟩ : Store)).2.2.2.2.2 0 (by decide),
   (C1_busiestMonth_lowest_tie.1
      (⟨[⟨"2", ⟨2019, 1, 15⟩, 50, "credit", "", "", ""⟩]⟩ : Store)).2.2.1 1 (by decide)⟩

/-- Claim C10: on the empty store both busiestMonth
(findMostTransactionsMonth) and busiestDebitMonth
(findMostDebitTransactionMonth) return 1, and on every store both
return an integer between 1 and 12. -/
theorem C10_busiestMonth_empty_bounds :
    (findMostTransactionsMonth (⟨[]⟩ : Store)).1 = 1 ∧
    (findMostDebitTransactionMonth (⟨[]⟩ : Store)).1 = 1 ∧
    (∀ s : Store,
      1 ≤ (findMostTransactionsMonth s).1 ∧ (findMostTransactionsMonth s).1 ≤ 12 ∧
      1 ≤ (findMostDebitTransactionMonth s).1 ∧
        (findMostDebitTransactionMonth s).1 ≤ 12) := by
  refine ⟨rfl, rfl, ?_⟩
  intro s
  have h1 := busiest_core s.transactions
  have h2 := busiest_core (getTransactionsByType s "debit").1
  exact ⟨h1.1, h1.2.1, h2.1, h2.2.1⟩
